import Mathlib

/-!
Verification development for the login / MFA flow of iris-web
(`source/app/blueprints/login/login_routes.py`).

The Python handlers are shallowly embedded as pure Lean functions over an
explicit state record (session + database + emitted audit events), with
Python exceptions modelled by `Except`.  External collaborators (bcrypt,
pyotp, flask_login, the user store, the permission resolver) are modelled
as oracle functions carried in an `Env` record, following section 6 of the
specification.
-/

/- ---------------------------------------------------------------------
   Python string helpers: `str(int)`, truthiness, substring test
   --------------------------------------------------------------------- -/

/-- Decimal digit character, as produced by Python `str` on `0..9`. -/
def digitChar (d : Nat) : Char :=
  if d = 0 then '0' else if d = 1 then '1' else if d = 2 then '2'
  else if d = 3 then '3' else if d = 4 then '4' else if d = 5 then '5'
  else if d = 6 then '6' else if d = 7 then '7' else if d = 8 then '8'
  else '9'

/-- Decimal digits helper, structurally recursive on a fuel bound so that
concrete values reduce definitionally; the fuel branch for `0` is never
reached with the fuel `natDigits` supplies (each division by ten consumes
one unit and strictly shrinks the number). -/
def natDigitsAux : Nat → Nat → List Char
  | 0, n => [digitChar n]
  | fuel + 1, n =>
    if n < 10 then [digitChar n]
    else natDigitsAux fuel (n / 10) ++ [digitChar (n % 10)]

/-- Decimal digit list of a natural number, most significant digit first,
mirroring Python `str(n)` for nonnegative `n`. -/
def natDigits (n : Nat) : List Char := natDigitsAux n n

/-- Python `str` on a nonnegative integer. -/
def pyStrNat (n : Nat) : String := String.mk (natDigits n)

/-- Python `str` on an `int`-or-`None` value (`str(None) = "None"`). -/
def pyStrOptNat : Option Nat → String
  | none => "None"
  | some n => pyStrNat n

/-- Python truthiness of an optional string: `None` and the empty string
are falsy. -/
def pyFalsyOptStr : Option String → Bool
  | none => true
  | some s => s = ""

/-- Does `pat` occur as a prefix of `s` (on character lists)? -/
def hasPrefixL : List Char → List Char → Bool
  | [], _ => true
  | _ :: _, [] => false
  | p :: ps, c :: cs => p = c && hasPrefixL ps cs

/-- Does `pat` occur as a contiguous substring of `s` (on character lists)? -/
def containsSub (pat : List Char) : List Char → Bool
  | [] => hasPrefixL pat []
  | c :: rest => hasPrefixL pat (c :: rest) || containsSub pat rest

/-- Python `pat in s` substring test on strings. -/
def strContains (s pat : String) : Bool := containsSub pat.data s.data

/- ---------------------------------------------------------------------
   urllib.parse.urlsplit: the netloc component
   --------------------------------------------------------------------- -/

/-- Characters removed from a URL before parsing
(`_UNSAFE_URL_BYTES_TO_REMOVE` in urllib: tab, CR, LF). -/
def removeUnsafe (s : List Char) : List Char :=
  s.filter (fun c => !(c = '\t' || c = '\r' || c = '\n'))

/-- Characters allowed inside a URL scheme (urllib `scheme_chars`). -/
def scheme_char (c : Char) : Bool :=
  c.isAlphanum || c = '+' || c = '-' || c = '.'

/-- ASCII letter test, as by Python `str.isascii() and str.isalpha()`. -/
def isAsciiAlpha (c : Char) : Bool :=
  ('a' ≤ c && c ≤ 'z') || ('A' ≤ c && c ≤ 'Z')

/-- Is the first character an ASCII letter? -/
def headIsAsciiAlpha : List Char → Bool
  | [] => false
  | c :: _ => isAsciiAlpha c

/-- Index of the first colon, if any (Python `url.find` of a colon). -/
def findColon : List Char → Option Nat
  | [] => none
  | c :: cs => if c = ':' then some 0 else (findColon cs).map (· + 1)

/-- Strip a leading `scheme:` part exactly as `urlsplit` does: a colon at a
positive index, first character an ASCII letter, and every character before
the colon a scheme character. -/
def removeScheme (s : List Char) : List Char :=
  match findColon s with
  | none => s
  | some i =>
    if 0 < i ∧ headIsAsciiAlpha s = true ∧ (s.take i).all scheme_char = true
    then s.drop (i + 1) else s

/-- Characters ending the netloc in `_splitnetloc`. -/
def isNetlocDelim (c : Char) : Bool := c = '/' || c = '?' || c = '#'

/-- The netloc of a URL after scheme removal: present only when the
remainder starts with two slashes, and then runs up to a delimiter. -/
def netlocOf (s : List Char) : List Char :=
  match removeScheme s with
  | a :: b :: rest =>
    if a = '/' ∧ b = '/' then rest.takeWhile (fun c => !isNetlocDelim c) else []
  | _ => []

/-- `urlsplit(url).netloc` of Python's urllib: the netloc component of a
split that does not raise.  Whether the split raises is
`urlsplit_invalid_ipv6` below. -/
def urlsplit_netloc (s : String) : String :=
  String.mk (netlocOf (removeUnsafe s.data))

/-- Netloc bracket validation of `urlsplit`: a `[` without `]` or a `]`
without `[` in the netloc raises `ValueError("Invalid IPv6 URL")`. -/
def bracketMismatch (nl : String) : Bool :=
  (nl.data.contains '[' && !nl.data.contains ']') ||
  (nl.data.contains ']' && !nl.data.contains '[')

/-- Does `urlsplit` raise `ValueError("Invalid IPv6 URL")` on this URL?
This is the mismatched-bracket check common to all CPython 3 versions; the
stricter validation of matched-bracket hosts added in CPython 3.11 is not
modelled, so matched-bracket netlocs follow the pre-3.11 behaviour. -/
def urlsplit_invalid_ipv6 (s : String) : Bool :=
  bracketMismatch (urlsplit_netloc s)

/- ---------------------------------------------------------------------
   Data model
   --------------------------------------------------------------------- -/

/-- A case row (`app.models.cases.Cases`): this fragment reads only the id
and the display name. -/
structure Case where
  case_id : Nat
  name : String
deriving DecidableEq, Repr

/-- A user row; the fields read or written by the login fragment. -/
structure User where
  user : String
  password : String
  email : String
  is_service_account : Bool
  active : Bool
  mfa_secrets : Option String
  mfa_enabled : Bool
  ctx_case : Option Nat
  ctx_human_case : Option String
deriving DecidableEq, Repr

/-- The session's `current_case` descriptor dictionary. -/
structure CurrentCase where
  case_name : Option String
  case_info : String
  case_id : Option Nat
deriving DecidableEq, Repr

/-- The flask session keys touched by the login fragment.  A key that may
be absent is an `Option` (absent = `none`). -/
structure Session where
  username : Option String
  mfa_verified : Option Bool
  permissions : Option (List String)
  current_case : Option CurrentCase
deriving DecidableEq, Repr

/-- The persistent store visible to this fragment: user rows and case rows. -/
structure DB where
  users : List User
  cases : List Case
deriving DecidableEq, Repr

/-- Request data used by the fragment: the `next` query argument
(`request.args.get` yields `none` when absent). -/
structure Req where
  next_arg : Option String
deriving DecidableEq, Repr

/-- External collaborators (specification section 6), supplied as oracles:
`checkHash` models `bc.check_password_hash`, `totpVerify` models
`pyotp.TOTP(secret).verify(token)`, `permsOf` models
`ac_get_effective_permissions_of_user`, `new_secret` models the value
produced by `pyotp.random_base32()`, and `current_user_user` models the
string rendered for `current_user.user` by flask_login's request proxy
(whose configuration lives outside this fragment). -/
structure Env where
  checkHash : String → String → Bool
  totpVerify : String → String → Bool
  permsOf : User → List String
  new_secret : String
  current_user_user : String

/-- Observable side effects: audit-sink calls (`track_activity`), the
flask_login `login_user` call, server-side error logging, database commits
and flashed messages. -/
inductive Event where
  | track (msg : String)
  | trackUserObj (u : User)
  | loginUser (uname : String)
  | logError (msg : String)
  | dbCommit
  | flash (msg : String)
deriving DecidableEq, Repr

/-- Python exceptions that the embedded fragment can raise. -/
inductive PyExn where
  | attrNoneCaseId
  | attrNoneMfaSecrets
  | valueErrorInvalidIPv6
  | ldapExn (msg : String)
deriving DecidableEq, Repr

/-- `e.__str__()` of the modelled exceptions, as logged by `log.error`. -/
def PyExn.str : PyExn → String
  | .attrNoneCaseId => "\x27NoneType\x27 object has no attribute \x27case_id\x27"
  | .attrNoneMfaSecrets => "\x27NoneType\x27 object has no attribute \x27mfa_secrets\x27"
  | .valueErrorInvalidIPv6 => "Invalid IPv6 URL"
  | .ldapExn m => m

/-- The response value a handler returns. -/
inductive Response where
  | renderLogin (msg : Option String)
  | renderMfaSetup
  | renderMfaVerify
  | redirect (url : String)
deriving DecidableEq, Repr

/-- The mutable state threaded through a request: session, store, and the
events emitted so far (in order). -/
structure St where
  sess : Session
  db : DB
  events : List Event
deriving DecidableEq, Repr

/- ---------------------------------------------------------------------
   Constant strings and route URLs
   --------------------------------------------------------------------- -/

/-- Generic credential failure message. -/
def wrong_creds_msg : String := "Wrong credentials. Please try again."

/-- Directory-outage message. -/
def ldap_unavailable_msg : String := "LDAP authentication unavailable. Check server logs"

/-- Invalid-token flash message. -/
def invalid_token_msg : String := "Invalid token. Please try again."

/-- Missing-token flash message. -/
def token_required_msg : String := "Token is required."

/-- Audit message for an unknown login name. -/
def user_not_exist_msg (username : String) : String :=
  "someone tried to log in with user \x27" ++ username ++ "\x27, which does not exist"

/-- Audit message for a directory failure with local fallback. -/
def ldap_fallback_msg (username : String) : String :=
  "wrong login password for user \x27" ++ username ++
    "\x27 using LDAP auth - falling back to local based on settings"

/-- Audit message for a directory failure without fallback. -/
def ldap_wrong_msg (username : String) : String :=
  "wrong login password for user \x27" ++ username ++ "\x27 using LDAP auth"

/-- Audit message for a local password mismatch. -/
def wrong_local_msg (username : String) : String :=
  "wrong login password for user \x27" ++ username ++ "\x27 using local auth"

/-- Audit message for a successful login (username form). -/
def success_login_msg (uname : String) : String :=
  "user \x27" ++ uname ++ "\x27 successfully logged-in"

/-- Audit message for a completed MFA setup (`current_user` is the setup
user there, bound by `login_required`). -/
def mfa_setup_success_msg (u : User) : String :=
  "MFA setup successful for user " ++ u.user

/-- Audit message for a verified MFA token. -/
def mfa_verified_msg (env : Env) : String :=
  "MFA verified for user " ++ env.current_user_user

/-- Audit message for an invalid MFA token. -/
def mfa_invalid_msg (env : Env) : String :=
  "MFA invalid for user " ++ env.current_user_user ++ ". Login aborted"

/-- Audit message when MFA is required but not yet enrolled. -/
def mfa_not_enabled_msg (env : Env) : String :=
  "MFA required but not enabled for user " ++ env.current_user_user

/-- `url_for` target of the MFA verification entry point. -/
def url_for_mfa_verify : String := "/auth/mfa-verify"

/-- `url_for` target of the MFA setup entry point. -/
def url_for_mfa_setup : String := "/auth/mfa-setup"

/-- `url_for` target of the login entry point. -/
def url_for_login : String := "/login"

/-- Modelled from the spec: `url_for` on the default landing page
(`index.index`, a route outside this fragment) with a `cid` query
parameter. -/
def url_for_index (cid : Option Nat) : String :=
  "/dashboard?cid=" ++ pyStrOptNat cid

/- ---------------------------------------------------------------------
   Store operations
   --------------------------------------------------------------------- -/

/-- Modelled from the spec: `get_active_user_by_login`
(`app/datamgmt/manage/manage_users_db.py`, outside this fragment), the
"user-store lookup by login name returning active users only". -/
def get_active_user_by_login (db : DB) (username : String) : Option User :=
  db.users.find? (fun u => u.user = username && u.active)

/-- Committing a mutated user object: the row with the same login name is
replaced. -/
def dbUpdateUser (db : DB) (u : User) : DB :=
  { db with users := db.users.map (fun v => if v.user = u.user then u else v) }

/-- Fold computing the row of least `case_id` (first occurrence wins). -/
def caseMinFold (c : Case) (cs : List Case) : Case :=
  cs.foldl (fun acc x => if x.case_id < acc.case_id then x else acc) c

/-- `Cases.query.order_by(Cases.case_id).first()`: the case of least id,
or `none` on an empty table. -/
def casesFirstByCaseId : List Case → Option Case
  | [] => none
  | c :: cs => some (caseMinFold c cs)

/- ---------------------------------------------------------------------
   The embedded handlers
   --------------------------------------------------------------------- -/

/-- `_retrieve_user_by_username` (login_routes.py lines 60-65): look up an
active user, auditing unknown login names. -/
def _retrieve_user_by_username (st : St) (username : String) : Option User × St :=
  match get_active_user_by_login st.db username with
  | some u => (some u, st)
  | none =>
    (none, { st with events := st.events ++ [Event.track (user_not_exist_msg username)] })

/-- The redirect-target computation of `wrap_login_user` (lines 166-172):
augment a truthy `next` with the case id unless it already contains
`cid=`, then fall back to the default landing page when there is no
usable `next` or its netloc is non-empty.  The `urlsplit` call on a
truthy `next_url` raises `ValueError("Invalid IPv6 URL")` on a
mismatched bracket in the netloc (short-circuiting: a falsy `next_url`
never reaches `urlsplit`). -/
def compute_next_url (next_arg : Option String) (ctx_case : Option Nat) :
    Except PyExn String :=
  let next_url : Option String :=
    match next_arg with
    | some nx =>
      if nx = "" then none
      else some (if strContains nx "cid=" then nx
                 else nx ++ "?cid=" ++ pyStrOptNat ctx_case)
    | none => none
  match next_url with
  | none => .ok (url_for_index ctx_case)
  | some u =>
    if u = "" then .ok (url_for_index ctx_case)
    else if urlsplit_invalid_ipv6 u then .error .valueErrorInvalidIPv6
    else if urlsplit_netloc u ≠ "" then .ok (url_for_index ctx_case)
    else .ok u

/-- Tail of `wrap_login_user` after case-context resolution (lines
158-173): populate the session's `current_case`, emit the second success
audit (which formats the user object), then compute the redirect target —
whose `urlsplit` call may raise, carrying the state mutated so far. -/
def wrap_finish (req : Req) (st : St) (user : User) :
    Except (PyExn × St) (Response × St) :=
  let st1 : St := { st with sess := { st.sess with
    current_case := some { case_name := user.ctx_human_case, case_info := "",
                           case_id := user.ctx_case } } }
  let st2 : St := { st1 with events := st1.events ++ [Event.trackUserObj user] }
  match compute_next_url req.next_arg user.ctx_case with
  | .ok u => .ok (.redirect u, st2)
  | .error e => .error (e, st2)

/-- `wrap_login_user` (lines 139-173): store the pending identity, gate on
the session's mfa-verified marker, and otherwise finalize the login:
`login_user`, success audit, permission caching, case-context resolution
(raising an attribute error on `None` when no case exists), and the
redirect.  An exception carries the state at the raise point. -/
def wrap_login_user (env : Env) (req : Req) (st : St) (user : User) :
    Except (PyExn × St) (Response × St) :=
  let st1 : St := { st with sess := { st.sess with username := some user.user } }
  match st1.sess.mfa_verified with
  | none => .ok (.redirect url_for_mfa_verify, st1)
  | some false => .ok (.redirect url_for_mfa_verify, st1)
  | some true =>
    let st2 : St := { st1 with events := st1.events ++
        [Event.loginUser user.user, Event.track (success_login_msg user.user)] }
    let st3 : St := { st2 with sess := { st2.sess with permissions := some (env.permsOf user) } }
    match user.ctx_case with
    | none =>
      match casesFirstByCaseId st3.db.cases with
      | none => .error (.attrNoneCaseId, st3)
      | some c =>
        let user1 : User := { user with ctx_case := some c.case_id, ctx_human_case := some c.name }
        let st4 : St := { st3 with
          db := dbUpdateUser st3.db user1,
          events := st3.events ++ [Event.dbCommit] }
        wrap_finish req st4 user1
    | some _ => wrap_finish req st3 user

/-- `_authenticate_password` (lines 100-110): local verification against
the password hash, rejecting unknown users and service accounts. -/
def _authenticate_password (env : Env) (req : Req) (st : St)
    (username password : String) : Except (PyExn × St) (Response × St) :=
  let (userOpt, st1) := _retrieve_user_by_username st username
  match userOpt with
  | none => .ok (.renderLogin (some wrong_creds_msg), st1)
  | some user =>
    if user.is_service_account then
      .ok (.renderLogin (some wrong_creds_msg), st1)
    else if env.checkHash user.password password then
      wrap_login_user env req st1 user
    else
      .ok (.renderLogin (some wrong_creds_msg),
           { st1 with events := st1.events ++ [Event.track (wrong_local_msg username)] })

/-- `_authenticate_ldap` (lines 77-97).  The outcome of the external
`ldap_authenticate(username, password)` call is passed as `ldapResult`
(`.error` models the call raising).  The whole body runs inside the
`try`, so any raised exception — from the directory call, the local
fallback, or `wrap_login_user` — is caught, logged server-side and turned
into the service-unavailable login page. -/
def _authenticate_ldap (env : Env) (req : Req) (st : St)
    (ldapResult : Except String Bool) (username password : String)
    (local_fallback : Bool) : Response × St :=
  let body : Except (PyExn × St) (Response × St) :=
    match ldapResult with
    | .error msg => .error (.ldapExn msg, st)
    | .ok false =>
      if local_fallback then
        let st1 : St := { st with events := st.events ++
            [Event.track (ldap_fallback_msg username)] }
        _authenticate_password env req st1 username password
      else
        .ok (.renderLogin (some wrong_creds_msg),
             { st with events := st.events ++ [Event.track (ldap_wrong_msg username)] })
    | .ok true =>
      let (userOpt, st1) := _retrieve_user_by_username st username
      match userOpt with
      | none => .ok (.renderLogin (some wrong_creds_msg), st1)
      | some user => wrap_login_user env req st1 user
  match body with
  | .ok r => r
  | .error (e, stE) =>
    (.renderLogin (some ldap_unavailable_msg),
     { stE with events := stE.events ++ [Event.logError e.str] })

/-- `mfa_setup` (lines 176-202), for the already-authenticated
`current_user` (passed as `user`).  On a valid submission a secret is
generated and committed if the stored one is falsy, and the token is
verified; success persists `mfa_enabled`, audits, and calls
`wrap_login_user`.  The fall-through branch renders the enrollment page
(QR/provisioning-URI generation is an external pyotp/qrcode detail). -/
def mfa_setup (env : Env) (req : Req) (st : St) (user : User)
    (form_valid : Bool) (token : String) : Except (PyExn × St) (Response × St) :=
  if form_valid then
    let gen := pyFalsyOptStr user.mfa_secrets
    let secret := if gen then env.new_secret else user.mfa_secrets.getD ""
    let user1 : User := if gen then { user with mfa_secrets := some env.new_secret } else user
    let st1 : St := if gen then
        { st with db := dbUpdateUser st.db user1, events := st.events ++ [Event.dbCommit] }
      else st
    if env.totpVerify secret token then
      let user2 : User := { user1 with mfa_enabled := true }
      let st2 : St := { st1 with
        db := dbUpdateUser st1.db user2,
        events := st1.events ++ [Event.dbCommit, Event.track (mfa_setup_success_msg user)] }
      wrap_login_user env req st2 user2
    else
      .ok (.renderMfaSetup, { st1 with events := st1.events ++ [Event.flash invalid_token_msg] })
  else
    .ok (.renderMfaSetup, st)

/-- `mfa_verify` (lines 205-239): restart login when no pending username is
in the session; otherwise reset the mfa-verified marker, look the user up
(a failed lookup leaves `user = None` and the `user.mfa_secrets` access
raises), route users without a secret to setup after `login_user`, and on
a valid submitted token clear the pending identity, set the marker, audit
and finalize via `wrap_login_user`. -/
def mfa_verify (env : Env) (req : Req) (st : St)
    (form_valid : Bool) (token : Option String) : Except (PyExn × St) (Response × St) :=
  match st.sess.username with
  | none => .ok (.redirect url_for_login, st)
  | some uname =>
    let st1 : St := { st with sess := { st.sess with mfa_verified := some false } }
    let (userOpt, st2) := _retrieve_user_by_username st1 uname
    match userOpt with
    | none => .error (.attrNoneMfaSecrets, st2)
    | some user =>
      if pyFalsyOptStr user.mfa_secrets then
        .ok (.redirect url_for_mfa_setup,
             { st2 with events := st2.events ++
                 [Event.track (mfa_not_enabled_msg env), Event.loginUser user.user] })
      else
        let secret := user.mfa_secrets.getD ""
        if form_valid then
          if (token.getD "") = "" then
            .ok (.renderMfaVerify,
                 { st2 with events := st2.events ++ [Event.flash token_required_msg] })
          else
            let tok := token.getD ""
            if env.totpVerify secret tok then
              wrap_login_user env req
                { st2 with
                  sess := { st2.sess with username := none, mfa_verified := some true },
                  events := st2.events ++ [Event.track (mfa_verified_msg env)] } user
            else
              .ok (.renderMfaVerify,
                   { st2 with events := st2.events ++
                       [Event.track (mfa_invalid_msg env), Event.flash invalid_token_msg] })
        else
          .ok (.renderMfaVerify, st2)

/- ---------------------------------------------------------------------
   Helper lemmas: strings and the netloc of an augmented URL
   --------------------------------------------------------------------- -/

theorem string_mk_data (l : List Char) : (String.mk l).data = l := rfl

/-- Characters that a `?cid=<digits>` suffix may contain: no colon and no
character stripped by urllib. -/
def urlAppendSafe (c : Char) : Bool :=
  !(c = ':' || c = '\t' || c = '\r' || c = '\n')

theorem digitChar_safe (d : Nat) : urlAppendSafe (digitChar d) = true := by
  unfold digitChar
  split_ifs <;> decide

theorem natDigitsAux_safe (fuel n : Nat) :
    (natDigitsAux fuel n).all urlAppendSafe = true := by
  induction fuel generalizing n with
  | zero => simp [natDigitsAux, digitChar_safe]
  | succ fuel ih =>
    rw [natDigitsAux]
    split
    · simp [digitChar_safe]
    · rw [List.all_append]
      simp [ih (n / 10), digitChar_safe]

theorem natDigits_safe (n : Nat) : (natDigits n).all urlAppendSafe = true :=
  natDigitsAux_safe n n

theorem findColon_append_none (s t : List Char) (h : findColon t = none) :
    findColon (s ++ t) = findColon s := by
  induction s with
  | nil => simpa [findColon] using h
  | cons c s ih =>
    by_cases hc : c = ':'
    · simp [findColon, hc]
    · simp [findColon, hc, ih]

theorem findColon_lt_length (s : List Char) (i : Nat) (h : findColon s = some i) :
    i < s.length := by
  induction s generalizing i with
  | nil => simp [findColon] at h
  | cons c s ih =>
    simp only [findColon] at h
    split at h
    · injection h with h0
      subst h0
      simp
    · cases hs : findColon s with
      | none => rw [hs] at h; simp at h
      | some j =>
        rw [hs] at h
        simp only [Option.map_some'] at h
        injection h with h0
        subst h0
        have := ih j hs
        simp only [List.length_cons]
        omega

theorem findColon_none_of_safe (t : List Char) (h : t.all urlAppendSafe = true) :
    findColon t = none := by
  induction t with
  | nil => rfl
  | cons c t ih =>
    simp only [List.all_cons, Bool.and_eq_true] at h
    have hc : ¬(c = ':') := by
      intro hcc
      rw [hcc] at h
      exact absurd h.1 (by decide)
    simp only [findColon, if_neg hc]
    rw [ih h.2]
    rfl

theorem removeUnsafe_append (s t : List Char) :
    removeUnsafe (s ++ t) = removeUnsafe s ++ removeUnsafe t := by
  simp [removeUnsafe, List.filter_append]

theorem removeUnsafe_eq_self_of_safe (t : List Char) (h : t.all urlAppendSafe = true) :
    removeUnsafe t = t := by
  rw [removeUnsafe, List.filter_eq_self]
  intro c hc
  have h1 := List.all_eq_true.mp h c hc
  by_cases h2 : c = '\t'
  · rw [h2] at h1; exact absurd h1 (by decide)
  · by_cases h3 : c = '\r'
    · rw [h3] at h1; exact absurd h1 (by decide)
    · by_cases h4 : c = '\n'
      · rw [h4] at h1; exact absurd h1 (by decide)
      · simp [h2, h3, h4]

theorem headIsAsciiAlpha_append (s t : List Char) (hs : s ≠ []) :
    headIsAsciiAlpha (s ++ t) = headIsAsciiAlpha s := by
  cases s with
  | nil => exact absurd rfl hs
  | cons c s => rfl

theorem take_append_left (s t : List Char) (n : Nat) (h : n ≤ s.length) :
    (s ++ t).take n = s.take n := by
  induction s generalizing n with
  | nil =>
    simp only [List.length_nil, Nat.le_zero] at h
    subst h
    simp
  | cons c s ih =>
    cases n with
    | zero => simp
    | succ m =>
      simp only [List.cons_append, List.take_succ_cons]
      rw [ih m (by simpa using h)]

theorem drop_append_left (s t : List Char) (n : Nat) (h : n ≤ s.length) :
    (s ++ t).drop n = s.drop n ++ t := by
  induction s generalizing n with
  | nil =>
    simp only [List.length_nil, Nat.le_zero] at h
    subst h
    simp
  | cons c s ih =>
    cases n with
    | zero => simp
    | succ m =>
      simp only [List.cons_append, List.drop_succ_cons]
      exact ih m (by simpa using h)

theorem removeScheme_eq_of_none (s : List Char) (h : findColon s = none) :
    removeScheme s = s := by
  unfold removeScheme
  rw [h]

theorem removeScheme_eq_of_some (s : List Char) (i : Nat) (h : findColon s = some i) :
    removeScheme s =
      if 0 < i ∧ headIsAsciiAlpha s = true ∧ (s.take i).all scheme_char = true
      then s.drop (i + 1) else s := by
  unfold removeScheme
  rw [h]

theorem removeScheme_append (s t : List Char) (h : findColon t = none) :
    removeScheme (s ++ t) = removeScheme s ++ t := by
  cases hs : findColon s with
  | none =>
    rw [removeScheme_eq_of_none _ hs,
        removeScheme_eq_of_none _ (by rw [findColon_append_none s t h, hs])]
  | some i =>
    have hlen : i < s.length := findColon_lt_length s i hs
    have hne : s ≠ [] := by
      intro he
      subst he
      simp [findColon] at hs
    rw [removeScheme_eq_of_some _ i (by rw [findColon_append_none s t h, hs]),
        removeScheme_eq_of_some _ i hs,
        headIsAsciiAlpha_append s t hne, take_append_left s t i (Nat.le_of_lt hlen)]
    by_cases hcond : 0 < i ∧ headIsAsciiAlpha s = true ∧ (s.take i).all scheme_char = true
    · rw [if_pos hcond, if_pos hcond]
      exact drop_append_left s t (i + 1) hlen
    · rw [if_neg hcond, if_neg hcond]

theorem takeWhile_append_head_false (p : Char → Bool) (r : List Char) (c : Char)
    (t : List Char) (hc : p c = false) :
    (r ++ c :: t).takeWhile p = r.takeWhile p := by
  induction r with
  | nil => simp [List.takeWhile_cons, hc]
  | cons a r ih =>
    simp only [List.cons_append, List.takeWhile_cons]
    by_cases ha : p a = true
    · simp [ha, ih]
    · simp [ha]

theorem netlocOf_append (s t' : List Char)
    (hcolon : findColon ('?' :: t') = none) :
    netlocOf (s ++ '?' :: t') = netlocOf s := by
  unfold netlocOf
  rw [removeScheme_append s _ hcolon]
  cases hr : removeScheme s with
  | nil =>
    cases t' with
    | nil => rfl
    | cons b t'' =>
      show (if ('?' = '/' ∧ b = '/') then _ else []) = []
      rw [if_neg]
      intro hx
      exact absurd hx.1 (by decide)
  | cons c r1 =>
    cases r1 with
    | nil =>
      show (if (c = '/' ∧ '?' = '/') then _ else []) = []
      rw [if_neg]
      intro hx
      exact absurd hx.2 (by decide)
    | cons d r2 =>
      show (if (c = '/' ∧ d = '/') then (r2 ++ '?' :: t').takeWhile _ else []) =
           (if (c = '/' ∧ d = '/') then r2.takeWhile _ else [])
      by_cases hcd : c = '/' ∧ d = '/'
      · rw [if_pos hcd, if_pos hcd,
            takeWhile_append_head_false _ r2 '?' t' (by decide)]
      · rw [if_neg hcd, if_neg hcd]

theorem urlsplit_netloc_cid_append (nx : String) (n : Nat) :
    urlsplit_netloc (nx ++ "?cid=" ++ pyStrNat n) = urlsplit_netloc nx := by
  have hsafe : ('?' :: ('c' :: 'i' :: 'd' :: '=' :: natDigits n)).all urlAppendSafe = true := by
    simp only [List.all_cons, natDigits_safe n, Bool.and_true]
    decide
  have h1 : (nx ++ "?cid=" ++ pyStrNat n).data
      = nx.data ++ ('?' :: ('c' :: 'i' :: 'd' :: '=' :: natDigits n)) := by
    simp only [String.data_append, pyStrNat, string_mk_data]
    simp [List.append_assoc]
  unfold urlsplit_netloc
  rw [h1, removeUnsafe_append,
      removeUnsafe_eq_self_of_safe _ hsafe,
      netlocOf_append _ _ (findColon_none_of_safe _ hsafe)]

theorem ne_empty_append (a b : String) (h : a ≠ "") : a ++ b ≠ "" := by
  obtain ⟨l⟩ := a
  intro he
  have hd := congrArg String.data he
  rw [String.data_append, string_mk_data,
      show ("" : String).data = ([] : List Char) from rfl] at hd
  have hl : l = [] := (List.append_eq_nil.mp hd).1
  subst hl
  exact h rfl

/-- A URL whose netloc is empty never trips the bracket validation. -/
theorem urlsplit_invalid_of_netloc_empty (u : String) (h : urlsplit_netloc u = "") :
    urlsplit_invalid_ipv6 u = false := by
  rw [urlsplit_invalid_ipv6, h]
  rfl

/-- The bracket validation of the augmented URL agrees with that of the
original, since appending `?cid=<digits>` does not change the netloc. -/
theorem urlsplit_invalid_cid_append (nx : String) (n : Nat) :
    urlsplit_invalid_ipv6 (nx ++ "?cid=" ++ pyStrNat n) = urlsplit_invalid_ipv6 nx := by
  rw [urlsplit_invalid_ipv6, urlsplit_invalid_ipv6, urlsplit_netloc_cid_append]

/-- Three-way behaviour of the redirect-target computation on a non-empty
requested `next` URL, given that the `urlsplit` call did not raise. -/
theorem compute_next_url_ok (nx : String) (cid : Nat) (u : String) (hnx : nx ≠ "")
    (h : compute_next_url (some nx) (some cid) = .ok u) :
    (urlsplit_netloc nx ≠ "" → u = url_for_index (some cid)) ∧
    (urlsplit_netloc nx = "" → strContains nx "cid=" = true → u = nx) ∧
    (urlsplit_netloc nx = "" → strContains nx "cid=" = false →
       u = nx ++ "?cid=" ++ pyStrNat cid) := by
  have happ : nx ++ "?cid=" ++ pyStrNat cid ≠ "" :=
    ne_empty_append _ _ (ne_empty_append nx "?cid=" hnx)
  by_cases hnet : urlsplit_netloc nx = ""
  · by_cases hc : strContains nx "cid=" = true
    · simp [compute_next_url, pyStrOptNat, hnx, hc, hnet,
            urlsplit_invalid_of_netloc_empty nx hnet] at h
      exact ⟨fun hx => absurd hnet hx, fun _ _ => h.symm,
             fun _ hcc => by rw [hc] at hcc; cases hcc⟩
    · simp [compute_next_url, pyStrOptNat, hnx, hc, happ,
            urlsplit_invalid_cid_append, urlsplit_invalid_of_netloc_empty nx hnet,
            urlsplit_netloc_cid_append, hnet] at h
      exact ⟨fun hx => absurd hnet hx, fun _ hcc => absurd hcc hc, fun _ _ => h.symm⟩
  · by_cases hinv : urlsplit_invalid_ipv6 nx = true
    · by_cases hc : strContains nx "cid=" = true
      · simp [compute_next_url, pyStrOptNat, hnx, hc, hinv] at h
      · simp [compute_next_url, pyStrOptNat, hnx, hc, happ,
              urlsplit_invalid_cid_append, hinv] at h
    · have hinv2 : urlsplit_invalid_ipv6 nx = false := by
        simpa using hinv
      by_cases hc : strContains nx "cid=" = true
      · simp [compute_next_url, pyStrOptNat, hnx, hc, hinv2, hnet] at h
        exact ⟨fun _ => h.symm, fun hx => absurd hx hnet, fun hx => absurd hx hnet⟩
      · simp [compute_next_url, pyStrOptNat, hnx, hc, happ, urlsplit_invalid_cid_append,
              hinv2, urlsplit_netloc_cid_append, hnet] at h
        exact ⟨fun _ => h.symm, fun hx => absurd hx hnet, fun hx => absurd hx hnet⟩

/-- The redirect computation can raise only the Invalid-IPv6 ValueError. -/
theorem compute_next_url_error_eq (na : Option String) (cc : Option Nat) (e : PyExn)
    (h : compute_next_url na cc = .error e) : e = .valueErrorInvalidIPv6 := by
  cases na with
  | none => exact Except.noConfusion h
  | some nx =>
    by_cases h0 : nx = ""
    · simp [compute_next_url, h0] at h
    · by_cases hc : strContains nx "cid=" = true
      · by_cases hinv : urlsplit_invalid_ipv6 nx = true
        · simp [compute_next_url, h0, hc, hinv] at h
          exact h.symm
        · by_cases hnet : urlsplit_netloc nx = ""
          · simp [compute_next_url, h0, hc, hinv, hnet] at h
          · simp [compute_next_url, h0, hc, hinv, hnet] at h
      · have happ : nx ++ "?cid=" ++ pyStrOptNat cc ≠ "" :=
          ne_empty_append _ _ (ne_empty_append nx "?cid=" h0)
        by_cases hinv : urlsplit_invalid_ipv6 (nx ++ "?cid=" ++ pyStrOptNat cc) = true
        · simp [compute_next_url, h0, hc, happ, hinv] at h
          exact h.symm
        · by_cases hnet : urlsplit_netloc (nx ++ "?cid=" ++ pyStrOptNat cc) = ""
          · simp [compute_next_url, h0, hc, happ, hinv, hnet] at h
          · simp [compute_next_url, h0, hc, happ, hinv, hnet] at h

theorem caseMinFold_cons (c x : Case) (cs : List Case) :
    caseMinFold c (x :: cs) = caseMinFold (if x.case_id < c.case_id then x else c) cs := rfl

theorem caseMinFold_mem (c : Case) (cs : List Case) :
    caseMinFold c cs = c ∨ caseMinFold c cs ∈ cs := by
  induction cs generalizing c with
  | nil => left; rfl
  | cons x cs ih =>
    rw [caseMinFold_cons]
    rcases ih (if x.case_id < c.case_id then x else c) with h | h
    · rw [h]
      by_cases hx : x.case_id < c.case_id
      · right
        rw [if_pos hx]
        exact List.mem_cons_self x cs
      · left
        rw [if_neg hx]
    · right
      exact List.mem_cons_of_mem x h

theorem caseMinFold_le (c : Case) (cs : List Case) :
    (caseMinFold c cs).case_id ≤ c.case_id ∧
      ∀ x ∈ cs, (caseMinFold c cs).case_id ≤ x.case_id := by
  induction cs generalizing c with
  | nil =>
    refine ⟨Nat.le_refl _, ?_⟩
    intro x hx
    simp at hx
  | cons y cs ih =>
    rw [caseMinFold_cons]
    by_cases hy : y.case_id < c.case_id
    · rw [if_pos hy]
      obtain ⟨h1, h2⟩ := ih y
      refine ⟨by omega, ?_⟩
      intro x hx
      rcases List.mem_cons.mp hx with rfl | hx
      · exact h1
      · exact h2 x hx
    · rw [if_neg hy]
      obtain ⟨h1, h2⟩ := ih c
      refine ⟨h1, ?_⟩
      intro x hx
      rcases List.mem_cons.mp hx with rfl | hx
      · omega
      · exact h2 x hx

theorem casesFirst_is_min (c0 : Case) (cs : List Case) :
    ∃ c, casesFirstByCaseId (c0 :: cs) = some c ∧ c ∈ c0 :: cs ∧
      ∀ x ∈ c0 :: cs, c.case_id ≤ x.case_id := by
  refine ⟨caseMinFold c0 cs, rfl, ?_, ?_⟩
  · rcases caseMinFold_mem c0 cs with h | h
    · rw [h]
      exact List.mem_cons_self c0 cs
    · exact List.mem_cons_of_mem c0 h
  · intro x hx
    obtain ⟨h1, h2⟩ := caseMinFold_le c0 cs
    rcases List.mem_cons.mp hx with rfl | hx
    · exact h1
    · exact h2 x hx

/- ---------------------------------------------------------------------
   Characterizations of the finalize wrapper
   --------------------------------------------------------------------- -/

/-- With the session's mfa-verified marker unset or false, finalization
stops at the MFA gate: the pending identity is stored and the only output
is a redirect to the MFA verification entry point. -/
theorem wrap_login_user_gate (env : Env) (req : Req) (st : St) (user : User)
    (hmfa : st.sess.mfa_verified ≠ some true) :
    wrap_login_user env req st user =
      .ok (.redirect url_for_mfa_verify,
           { st with sess := { st.sess with username := some user.user } }) := by
  obtain ⟨⟨su, smv, sp, scc⟩, sdb, sev⟩ := st
  simp only at hmfa
  match smv with
  | none => rfl
  | some false => rfl
  | some true => exact absurd rfl hmfa

/-- Finalization of a user whose case context is already set, when the
redirect computation does not raise. -/
theorem wrap_login_user_finalize_some_ok (env : Env) (req : Req) (st : St) (user : User)
    (k : Nat) (u : String)
    (hmfa : st.sess.mfa_verified = some true) (hctx : user.ctx_case = some k)
    (hcn : compute_next_url req.next_arg (some k) = .ok u) :
    wrap_login_user env req st user =
      .ok (.redirect u,
           { st with
             sess := { st.sess with
               username := some user.user,
               permissions := some (env.permsOf user),
               current_case := some { case_name := user.ctx_human_case, case_info := "",
                                      case_id := some k } },
             events := (st.events ++ [Event.loginUser user.user,
                          Event.track (success_login_msg user.user)]) ++
                       [Event.trackUserObj user] }) := by
  obtain ⟨⟨su, smv, sp, scc⟩, sdb, sev⟩ := st
  obtain ⟨uu, up, ue, usa, uact, ums, umfa, uctx, uhc⟩ := user
  simp only at hmfa hctx
  subst hmfa
  subst hctx
  simp only [wrap_login_user, wrap_finish, hcn]

/-- Finalization of a user whose case context is already set, when the
redirect computation raises: the exception carries the state with the
session case context populated and both success audits emitted. -/
theorem wrap_login_user_finalize_some_err (env : Env) (req : Req) (st : St) (user : User)
    (k : Nat) (e : PyExn)
    (hmfa : st.sess.mfa_verified = some true) (hctx : user.ctx_case = some k)
    (hcn : compute_next_url req.next_arg (some k) = .error e) :
    wrap_login_user env req st user =
      .error (e,
           { st with
             sess := { st.sess with
               username := some user.user,
               permissions := some (env.permsOf user),
               current_case := some { case_name := user.ctx_human_case, case_info := "",
                                      case_id := some k } },
             events := (st.events ++ [Event.loginUser user.user,
                          Event.track (success_login_msg user.user)]) ++
                       [Event.trackUserObj user] }) := by
  obtain ⟨⟨su, smv, sp, scc⟩, sdb, sev⟩ := st
  obtain ⟨uu, up, ue, usa, uact, ums, umfa, uctx, uhc⟩ := user
  simp only at hmfa hctx
  subst hmfa
  subst hctx
  simp only [wrap_login_user, wrap_finish, hcn]

/-- Finalization of a user with no case context when at least one case of
least id exists and the redirect computation does not raise: the case is
assigned, committed, and used in the session. -/
theorem wrap_login_user_finalize_none_ok (env : Env) (req : Req) (st : St) (user : User)
    (c : Case) (u : String)
    (hmfa : st.sess.mfa_verified = some true) (hctx : user.ctx_case = none)
    (hfirst : casesFirstByCaseId st.db.cases = some c)
    (hcn : compute_next_url req.next_arg (some c.case_id) = .ok u) :
    wrap_login_user env req st user =
      .ok (.redirect u,
           { st with
             sess := { st.sess with
               username := some user.user,
               permissions := some (env.permsOf user),
               current_case := some { case_name := some c.name, case_info := "",
                                      case_id := some c.case_id } },
             db := dbUpdateUser st.db
               { user with ctx_case := some c.case_id, ctx_human_case := some c.name },
             events := ((st.events ++ [Event.loginUser user.user,
                           Event.track (success_login_msg user.user)]) ++
                        [Event.dbCommit]) ++
                       [Event.trackUserObj
                         { user with ctx_case := some c.case_id,
                                     ctx_human_case := some c.name }] }) := by
  obtain ⟨⟨su, smv, sp, scc⟩, sdb, sev⟩ := st
  obtain ⟨uu, up, ue, usa, uact, ums, umfa, uctx, uhc⟩ := user
  simp only at hmfa hctx hfirst
  subst hmfa
  subst hctx
  simp only [wrap_login_user, wrap_finish, hfirst, hcn]

/-- Finalization of a user with no case context when at least one case of
least id exists but the redirect computation raises: the assignment is
still committed and the session case context still populated; the
exception carries that state. -/
theorem wrap_login_user_finalize_none_err (env : Env) (req : Req) (st : St) (user : User)
    (c : Case) (e : PyExn)
    (hmfa : st.sess.mfa_verified = some true) (hctx : user.ctx_case = none)
    (hfirst : casesFirstByCaseId st.db.cases = some c)
    (hcn : compute_next_url req.next_arg (some c.case_id) = .error e) :
    wrap_login_user env req st user =
      .error (e,
           { st with
             sess := { st.sess with
               username := some user.user,
               permissions := some (env.permsOf user),
               current_case := some { case_name := some c.name, case_info := "",
                                      case_id := some c.case_id } },
             db := dbUpdateUser st.db
               { user with ctx_case := some c.case_id, ctx_human_case := some c.name },
             events := ((st.events ++ [Event.loginUser user.user,
                           Event.track (success_login_msg user.user)]) ++
                        [Event.dbCommit]) ++
                       [Event.trackUserObj
                         { user with ctx_case := some c.case_id,
                                     ctx_human_case := some c.name }] }) := by
  obtain ⟨⟨su, smv, sp, scc⟩, sdb, sev⟩ := st
  obtain ⟨uu, up, ue, usa, uact, ums, umfa, uctx, uhc⟩ := user
  simp only at hmfa hctx hfirst
  subst hmfa
  subst hctx
  simp only [wrap_login_user, wrap_finish, hfirst, hcn]

/-- Finalization of a user with no case context when no case exists: the
attribute access on `None` raises, carrying the partial state. -/
theorem wrap_login_user_no_case (env : Env) (req : Req) (st : St) (user : User)
    (hmfa : st.sess.mfa_verified = some true) (hctx : user.ctx_case = none)
    (hfirst : casesFirstByCaseId st.db.cases = none) :
    wrap_login_user env req st user =
      .error (.attrNoneCaseId,
        { st with
          sess := { st.sess with
            username := some user.user,
            permissions := some (env.permsOf user) },
          events := st.events ++ [Event.loginUser user.user,
                                  Event.track (success_login_msg user.user)] }) := by
  obtain ⟨⟨su, smv, sp, scc⟩, sdb, sev⟩ := st
  obtain ⟨uu, up, ue, usa, uact, ums, umfa, uctx, uhc⟩ := user
  simp only at hmfa hctx hfirst
  subst hmfa
  subst hctx
  simp only [wrap_login_user, hfirst]

/- ---------------------------------------------------------------------
   Sample values for concrete executions
   --------------------------------------------------------------------- -/

/-- Oracles for concrete executions: every hash check fails, every TOTP
token verifies, permissions are empty. -/
def sampleEnv : Env :=
  { checkHash := fun _ _ => false, totpVerify := fun _ _ => true,
    permsOf := fun _ => [], new_secret := "SAMPLESECRET",
    current_user_user := "alice" }

def sampleUser : User :=
  { user := "alice", password := "hash", email := "alice@example.org",
    is_service_account := false, active := true, mfa_secrets := some "SECRET",
    mfa_enabled := false, ctx_case := none, ctx_human_case := none }

def sampleDB : DB :=
  { users := [sampleUser],
    cases := [{ case_id := 7, name := "case seven" }, { case_id := 3, name := "case three" }] }

def sampleSession : Session :=
  { username := none, mfa_verified := some true, permissions := none, current_case := none }

def sampleSt : St := { sess := sampleSession, db := sampleDB, events := [] }

def sessFalse : Session :=
  { username := none, mfa_verified := some false, permissions := none, current_case := none }

def stFalse : St := { sess := sessFalse, db := sampleDB, events := [] }

def emptyDB : DB := { users := [sampleUser], cases := [] }

def stEmptyCases : St := { sess := sampleSession, db := emptyDB, events := [] }

def stPending : St :=
  { sess := { username := some "alice", mfa_verified := none, permissions := none,
              current_case := none },
    db := sampleDB, events := [] }

def stGhost : St :=
  { sess := { username := some "ghost", mfa_verified := none, permissions := none,
              current_case := none },
    db := sampleDB, events := [] }

/- ---------------------------------------------------------------------
   Claims
   --------------------------------------------------------------------- -/

/-- Claim C3: when the directory authentication call itself raises, the
verifier renders the distinct service-unavailable message (never the
invalid-credentials message), the fault detail is logged server-side, and
the rendered response does not depend on the fault detail. -/
theorem claim_C3_ldap_unavailable (env : Env) (req : Req) (st : St)
    (username password msg : String) (fb : Bool) :
    _authenticate_ldap env req st (.error msg) username password fb
      = (.renderLogin (some ldap_unavailable_msg),
         { st with events := st.events ++ [Event.logError msg] }) ∧
    ldap_unavailable_msg ≠ wrong_creds_msg ∧
    (∀ msg2 : String,
      (_authenticate_ldap env req st (.error msg) username password fb).1
        = (_authenticate_ldap env req st (.error msg2) username password fb).1) := by
  refine ⟨rfl, by decide, ?_⟩
  intro msg2
  rfl

/-- Claim C4: on explicit directory failure, with fallback allowed the
verifier returns the local verification result for the same credentials
(audit events included); with fallback disallowed it renders the
invalid-credentials message without attempting local verification. -/
theorem claim_C4_ldap_fallback (env : Env) (req : Req) (st : St)
    (username password : String) (r : Response) (st2 : St)
    (hloc : _authenticate_password env req
        { st with events := st.events ++ [Event.track (ldap_fallback_msg username)] }
        username password = .ok (r, st2)) :
    _authenticate_ldap env req st (.ok false) username password true = (r, st2) ∧
    _authenticate_ldap env req st (.ok false) username password false
      = (.renderLogin (some wrong_creds_msg),
         { st with events := st.events ++ [Event.track (ldap_wrong_msg username)] }) := by
  constructor
  · simp only [_authenticate_ldap, if_true]
    rw [hloc]
  · rfl

theorem claim_C4_witness :
    ∃ r st2,
      _authenticate_password sampleEnv { next_arg := none }
        { sampleSt with events := sampleSt.events ++ [Event.track (ldap_fallback_msg "alice")] }
        "alice" "pw" = .ok (r, st2) ∧
      _authenticate_ldap sampleEnv { next_arg := none } sampleSt (.ok false) "alice" "pw" true
        = (r, st2) ∧
      _authenticate_ldap sampleEnv { next_arg := none } sampleSt (.ok false) "alice" "pw" false
        = (.renderLogin (some wrong_creds_msg),
           { sampleSt with
             events := sampleSt.events ++ [Event.track (ldap_wrong_msg "alice")] }) := by
  refine ⟨_, _, rfl, ?_, ?_⟩
  · exact (claim_C4_ldap_fallback sampleEnv { next_arg := none } sampleSt "alice" "pw" _ _ rfl).1
  · exact (claim_C4_ldap_fallback sampleEnv { next_arg := none } sampleSt "alice" "pw" _ _ rfl).2

/-- Claim C6: whenever credential verification succeeds but the session's
mfa-verified marker is unset or false, finalization stores the pending
identity and stops with a redirect to the MFA verification entry point:
the state's event list is unchanged, so no `login_user` call and no
successful-login audit is emitted. -/
theorem claim_C6_mfa_gate (env : Env) (req : Req) (st : St) (user : User)
    (hmfa : st.sess.mfa_verified = none ∨ st.sess.mfa_verified = some false) :
    wrap_login_user env req st user
      = .ok (.redirect url_for_mfa_verify,
             { st with sess := { st.sess with username := some user.user } }) ∧
    ({ st with sess := { st.sess with username := some user.user } } : St).events
      = st.events ∧
    (∀ uname : String,
      Event.loginUser uname
          ∈ ({ st with sess := { st.sess with username := some user.user } } : St).events →
      Event.loginUser uname ∈ st.events) ∧
    (∀ m : String,
      Event.track m
          ∈ ({ st with sess := { st.sess with username := some user.user } } : St).events →
      Event.track m ∈ st.events) := by
  have hne : st.sess.mfa_verified ≠ some true := by
    rcases hmfa with h | h <;> rw [h] <;> intro hx <;> cases hx
  exact ⟨wrap_login_user_gate env req st user hne, rfl, fun _ h => h, fun _ h => h⟩

theorem claim_C6_witness :
    (stFalse.sess.mfa_verified = none ∨ stFalse.sess.mfa_verified = some false) ∧
    wrap_login_user sampleEnv { next_arg := none } stFalse sampleUser
      = .ok (.redirect url_for_mfa_verify,
             { stFalse with sess := { stFalse.sess with username := some sampleUser.user } }) ∧
    ({ stFalse with sess := { stFalse.sess with username := some sampleUser.user } } : St).events
      = stFalse.events :=
  ⟨Or.inr rfl,
   (claim_C6_mfa_gate sampleEnv { next_arg := none } stFalse sampleUser (Or.inr rfl)).1,
   (claim_C6_mfa_gate sampleEnv { next_arg := none } stFalse sampleUser (Or.inr rfl)).2.1⟩

/-- Claim C8: a user with no case context reaching finalization while zero
cases exist makes the finalize step raise (an exception, not a rendered
form); with at least one case this fatal branch is unreachable: the
finalize step never raises the missing-case attribute error. -/
theorem claim_C8_zero_cases (env : Env) (req : Req) (st : St) (user : User)
    (hmfa : st.sess.mfa_verified = some true) (hctx : user.ctx_case = none) :
    (st.db.cases = [] →
      wrap_login_user env req st user
        = .error (.attrNoneCaseId,
            { st with
              sess := { st.sess with
                username := some user.user,
                permissions := some (env.permsOf user) },
              events := st.events ++ [Event.loginUser user.user,
                                      Event.track (success_login_msg user.user)] })) ∧
    (st.db.cases ≠ [] →
      ∀ stE : St, wrap_login_user env req st user ≠ .error (.attrNoneCaseId, stE)) := by
  constructor
  · intro hnil
    exact wrap_login_user_no_case env req st user hmfa hctx (by rw [hnil]; rfl)
  · intro hne stE hEq
    cases hcs : st.db.cases with
    | nil => exact absurd hcs hne
    | cons c0 cs =>
      obtain ⟨c, hfirst, hmem, hle⟩ := casesFirst_is_min c0 cs
      rw [← hcs] at hfirst
      cases hcn : compute_next_url req.next_arg (some c.case_id) with
      | ok u =>
        rw [wrap_login_user_finalize_none_ok env req st user c u hmfa hctx hfirst hcn] at hEq
        exact Except.noConfusion hEq
      | error e =>
        rw [wrap_login_user_finalize_none_err env req st user c e hmfa hctx hfirst hcn] at hEq
        have he := compute_next_url_error_eq _ _ _ hcn
        subst he
        simp at hEq

theorem claim_C8_witness :
    stEmptyCases.sess.mfa_verified = some true ∧ sampleUser.ctx_case = none ∧
    stEmptyCases.db.cases = [] ∧
    wrap_login_user sampleEnv { next_arg := none } stEmptyCases sampleUser
      = .error (.attrNoneCaseId,
          { stEmptyCases with
            sess := { stEmptyCases.sess with
              username := some sampleUser.user,
              permissions := some (sampleEnv.permsOf sampleUser) },
            events := stEmptyCases.events ++
              [Event.loginUser sampleUser.user,
               Event.track (success_login_msg sampleUser.user)] }) :=
  ⟨rfl, rfl, rfl,
   (claim_C8_zero_cases sampleEnv { next_arg := none } stEmptyCases sampleUser rfl rfl).1 rfl⟩

/-- Claim C9: a pending session username that no longer resolves to an
active user makes the MFA-verify handler raise on the `None` attribute
access instead of redirecting to the login entry point; the restart-login
guard fires only for an absent session username. -/
theorem claim_C9_verify_none_user (env : Env) (req : Req) (st : St)
    (uname : String) (fv : Bool) (token : Option String)
    (hu : st.sess.username = some uname)
    (hl : get_active_user_by_login st.db uname = none) :
    mfa_verify env req st fv token
      = .error (.attrNoneMfaSecrets,
          { st with
            sess := { st.sess with mfa_verified := some false },
            events := st.events ++ [Event.track (user_not_exist_msg uname)] }) ∧
    (∀ st' : St, st'.sess.username = none →
      mfa_verify env req st' fv token = .ok (.redirect url_for_login, st')) := by
  constructor
  · obtain ⟨⟨su, smv, sp, scc⟩, sdb, sev⟩ := st
    simp only at hu hl
    subst hu
    simp [mfa_verify, _retrieve_user_by_username, hl]
  · intro st' hu'
    obtain ⟨⟨su, smv, sp, scc⟩, sdb, sev⟩ := st'
    simp only at hu'
    subst hu'
    rfl

theorem claim_C9_witness :
    stGhost.sess.username = some "ghost" ∧
    get_active_user_by_login stGhost.db "ghost" = none ∧
    mfa_verify sampleEnv { next_arg := none } stGhost true (some "123456")
      = .error (.attrNoneMfaSecrets,
          { stGhost with
            sess := { stGhost.sess with mfa_verified := some false },
            events := stGhost.events ++ [Event.track (user_not_exist_msg "ghost")] }) :=
  ⟨rfl, rfl,
   (claim_C9_verify_none_user sampleEnv { next_arg := none } stGhost "ghost" true
      (some "123456") rfl rfl).1⟩

/-- Claim C10: in directory mode the exception handler also wraps the local
fallback and the whole finalization, so any exception raised after a
successful directory authentication — the zero-cases finalization fault
included — is caught and rendered as the service-unavailable login form. -/
theorem claim_C10_ldap_catches_finalize (env : Env) (req : Req) (st : St)
    (username password : String) (fb : Bool) :
    (∀ (user : User) (e : PyExn) (stE : St),
      get_active_user_by_login st.db username = some user →
      wrap_login_user env req st user = .error (e, stE) →
      _authenticate_ldap env req st (.ok true) username password fb
        = (.renderLogin (some ldap_unavailable_msg),
           { stE with events := stE.events ++ [Event.logError e.str] })) ∧
    (∀ (e : PyExn) (stE : St),
      _authenticate_password env req
          { st with events := st.events ++ [Event.track (ldap_fallback_msg username)] }
          username password = .error (e, stE) →
      _authenticate_ldap env req st (.ok false) username password true
        = (.renderLogin (some ldap_unavailable_msg),
           { stE with events := stE.events ++ [Event.logError e.str] })) := by
  constructor
  · intro user e stE hl hw
    simp [_authenticate_ldap, _retrieve_user_by_username, hl, hw]
  · intro e stE hw
    simp [_authenticate_ldap, hw]

theorem claim_C10_witness :
    ∃ (e : PyExn) (stE : St),
      get_active_user_by_login stEmptyCases.db "alice" = some sampleUser ∧
      wrap_login_user sampleEnv { next_arg := none } stEmptyCases sampleUser
        = .error (e, stE) ∧
      _authenticate_ldap sampleEnv { next_arg := none } stEmptyCases (.ok true)
          "alice" "pw" true
        = (.renderLogin (some ldap_unavailable_msg),
           { stE with events := stE.events ++ [Event.logError e.str] }) := by
  refine ⟨_, _, rfl, rfl, ?_⟩
  exact (claim_C10_ldap_catches_finalize sampleEnv { next_arg := none } stEmptyCases
    "alice" "pw" true).1 sampleUser _ _ rfl rfl

/-- Claim C7: on an MFA-verify submission whose token verifies, the pending
username is removed from the session and the mfa-verified marker set to
true before finalization proceeds: the handler equals the finalization
wrapper applied to exactly that cleared session. -/
theorem claim_C7_verify_clears_pending (env : Env) (req : Req) (st : St)
    (uname tok secret : String) (user : User)
    (hu : st.sess.username = some uname)
    (hl : get_active_user_by_login st.db uname = some user)
    (hs : user.mfa_secrets = some secret) (hsne : secret ≠ "")
    (htok : tok ≠ "")
    (hv : env.totpVerify secret tok = true) :
    (({ st.sess with username := none, mfa_verified := some true } : Session).username
       = none) ∧
    (({ st.sess with username := none, mfa_verified := some true } : Session).mfa_verified
       = some true) ∧
    mfa_verify env req st true (some tok)
      = wrap_login_user env req
          { st with
            sess := { st.sess with username := none, mfa_verified := some true },
            events := st.events ++ [Event.track (mfa_verified_msg env)] } user := by
  refine ⟨rfl, rfl, ?_⟩
  obtain ⟨⟨su, smv, sp, scc⟩, sdb, sev⟩ := st
  simp only at hu hl
  subst hu
  simp [mfa_verify, _retrieve_user_by_username, hl, hs, hsne, htok, hv, pyFalsyOptStr]

theorem claim_C7_witness :
    stPending.sess.username = some "alice" ∧
    get_active_user_by_login stPending.db "alice" = some sampleUser ∧
    sampleUser.mfa_secrets = some "SECRET" ∧
    sampleEnv.totpVerify "SECRET" "123456" = true ∧
    mfa_verify sampleEnv { next_arg := none } stPending true (some "123456")
      = wrap_login_user sampleEnv { next_arg := none }
          { stPending with
            sess := { stPending.sess with username := none, mfa_verified := some true },
            events := stPending.events ++ [Event.track (mfa_verified_msg sampleEnv)] }
          sampleUser :=
  ⟨rfl, rfl, rfl, rfl,
   (claim_C7_verify_clears_pending sampleEnv { next_arg := none } stPending "alice"
      "123456" "SECRET" sampleUser rfl rfl rfl (by decide) (by decide) rfl).2.2⟩

/-- Counterexample for claim C5: a concrete MFA-setup submission whose
token verifies (against the user's provisioned secret) in a session whose
mfa-verified marker is false — the enrollment situation, since the verify
entry point sets the marker to false before routing to setup.  The handler
persists `mfa_enabled = true` and audits success, yet its response is a
redirect back to the MFA-verification entry point, not the session
finalization the claim asserts. -/
theorem claim_C5_counterexample :
    sampleUser.mfa_secrets = some "SECRET" ∧
    sampleEnv.totpVerify "SECRET" "123456" = true ∧
    stFalse.sess.mfa_verified = some false ∧
    mfa_setup sampleEnv { next_arg := none } stFalse sampleUser true "123456"
      = .ok (.redirect url_for_mfa_verify,
          { stFalse with
            sess := { stFalse.sess with username := some "alice" },
            db := dbUpdateUser stFalse.db { sampleUser with mfa_enabled := true },
            events := stFalse.events ++
              [Event.dbCommit, Event.track (mfa_setup_success_msg sampleUser)] }) := by
  refine ⟨rfl, rfl, rfl, ?_⟩
  rfl

/-- Claim C5 (amended): on an MFA-setup submission whose token verifies
against the user's provisioned secret, the handler persists
`mfa_enabled = true`, audits success, and invokes the session-finalization
wrapper; the wrapper proceeds with finalization only when the session's
mfa-verified marker is already true, and otherwise redirects back to the
MFA-verification entry point. -/
theorem claim_C5_amended_setup (env : Env) (req : Req) (st : St) (user : User)
    (tok secret : String)
    (hs : user.mfa_secrets = some secret) (hne : secret ≠ "")
    (hv : env.totpVerify secret tok = true) :
    mfa_setup env req st user true tok
      = wrap_login_user env req
          { st with
            db := dbUpdateUser st.db { user with mfa_enabled := true },
            events := st.events ++
              [Event.dbCommit, Event.track (mfa_setup_success_msg user)] }
          { user with mfa_enabled := true } ∧
    (st.sess.mfa_verified ≠ some true →
      mfa_setup env req st user true tok
        = .ok (.redirect url_for_mfa_verify,
            { st with
              sess := { st.sess with username := some user.user },
              db := dbUpdateUser st.db { user with mfa_enabled := true },
              events := st.events ++
                [Event.dbCommit, Event.track (mfa_setup_success_msg user)] })) := by
  have h1 : mfa_setup env req st user true tok
      = wrap_login_user env req
          { st with
            db := dbUpdateUser st.db { user with mfa_enabled := true },
            events := st.events ++
              [Event.dbCommit, Event.track (mfa_setup_success_msg user)] }
          { user with mfa_enabled := true } := by
    simp [mfa_setup, pyFalsyOptStr, hs, hne, hv]
  refine ⟨h1, ?_⟩
  intro hmv
  rw [h1]
  exact wrap_login_user_gate env req _ _ hmv

theorem claim_C5_witness :
    sampleUser.mfa_secrets = some "SECRET" ∧
    sampleEnv.totpVerify "SECRET" "123456" = true ∧
    mfa_setup sampleEnv { next_arg := none } sampleSt sampleUser true "123456"
      = wrap_login_user sampleEnv { next_arg := none }
          { sampleSt with
            db := dbUpdateUser sampleSt.db { sampleUser with mfa_enabled := true },
            events := sampleSt.events ++
              [Event.dbCommit, Event.track (mfa_setup_success_msg sampleUser)] }
          { sampleUser with mfa_enabled := true } :=
  ⟨rfl, rfl,
   (claim_C5_amended_setup sampleEnv { next_arg := none } sampleSt sampleUser
      "123456" "SECRET" rfl (by decide) rfl).1⟩

/-- The state carried by the ValueError raised while finalizing
`sampleUser` with `next = "//[x"`: case context already resolved,
committed and placed in the session, both success audits emitted. -/
def stErrC1 : St :=
  { sess := { username := some "alice", mfa_verified := some true, permissions := some [],
              current_case := some { case_name := some "case three", case_info := "",
                                     case_id := some 3 } },
    db := dbUpdateUser sampleDB
      { sampleUser with ctx_case := some 3, ctx_human_case := some "case three" },
    events := [Event.loginUser "alice",
               Event.track (success_login_msg "alice"),
               Event.dbCommit,
               Event.trackUserObj
                 { sampleUser with ctx_case := some 3,
                                   ctx_human_case := some "case three" }] }

/-- Counterexample to claim C1 as stated: the requested `next = "//[x"`
has a network-location component (`"[x"`), but instead of redirecting to
the default landing page the finalize step raises urlsplit's
Invalid-IPv6 ValueError while computing the redirect target (the
augmented URL's netloc has a `[` with no `]`), so no redirect is issued
at all. -/
theorem claim_C1_counterexample :
    sampleSt.sess.mfa_verified = some true ∧
    urlsplit_netloc "//[x" ≠ "" ∧
    urlsplit_invalid_ipv6 ("//[x" ++ "?cid=" ++ pyStrNat 3) = true ∧
    wrap_login_user sampleEnv { next_arg := some "//[x" } sampleSt sampleUser
      = .error (.valueErrorInvalidIPv6, stErrC1) :=
  ⟨rfl, by decide, by decide, rfl⟩

/-- Claim C1 (amended): for every finalization of a successful login with
a requested `next` URL that completes with a redirect (i.e. the
`urlsplit` call on the augmented URL does not raise the Invalid-IPv6
ValueError): a `next` with a network-location component redirects to the
default landing page with the resolved case id; a same-origin `next`
already containing `cid=` is used unchanged; a same-origin `next` without
`cid=` gets the resolved case id appended as a `cid` query parameter.
A `next` whose augmented URL has a mismatched bracket in its netloc makes
the finalize step raise instead (see the counterexample). -/
theorem claim_C1_redirect_guard (env : Env) (req : Req) (st : St) (user : User)
    (nx : String) (r : Response) (stOut : St)
    (hmfa : st.sess.mfa_verified = some true)
    (hok : wrap_login_user env req st user = .ok (r, stOut))
    (hnext : req.next_arg = some nx) (hne : nx ≠ "") :
    ∃ (cid : Nat) (cc : CurrentCase),
      stOut.sess.current_case = some cc ∧ cc.case_id = some cid ∧
      (urlsplit_netloc nx ≠ "" → r = .redirect (url_for_index (some cid))) ∧
      (urlsplit_netloc nx = "" → strContains nx "cid=" = true → r = .redirect nx) ∧
      (urlsplit_netloc nx = "" → strContains nx "cid=" = false →
         r = .redirect (nx ++ "?cid=" ++ pyStrNat cid)) := by
  cases hctx : user.ctx_case with
  | some k =>
    cases hcn : compute_next_url req.next_arg (some k) with
    | error e =>
      rw [wrap_login_user_finalize_some_err env req st user k e hmfa hctx hcn] at hok
      exact Except.noConfusion hok
    | ok u =>
      rw [wrap_login_user_finalize_some_ok env req st user k u hmfa hctx hcn] at hok
      simp only [Except.ok.injEq, Prod.mk.injEq] at hok
      obtain ⟨hr, hst⟩ := hok
      subst hr
      subst hst
      rw [hnext] at hcn
      obtain ⟨s1, s2, s3⟩ := compute_next_url_ok nx k u hne hcn
      refine ⟨k, { case_name := user.ctx_human_case, case_info := "", case_id := some k },
        rfl, rfl, ?_, ?_, ?_⟩
      · intro h
        rw [s1 h]
      · intro h hc
        rw [s2 h hc]
      · intro h hc
        rw [s3 h hc]
  | none =>
    cases hfirst : casesFirstByCaseId st.db.cases with
    | none =>
      rw [wrap_login_user_no_case env req st user hmfa hctx hfirst] at hok
      exact Except.noConfusion hok
    | some c =>
      cases hcn : compute_next_url req.next_arg (some c.case_id) with
      | error e =>
        rw [wrap_login_user_finalize_none_err env req st user c e hmfa hctx hfirst hcn] at hok
        exact Except.noConfusion hok
      | ok u =>
        rw [wrap_login_user_finalize_none_ok env req st user c u hmfa hctx hfirst hcn] at hok
        simp only [Except.ok.injEq, Prod.mk.injEq] at hok
        obtain ⟨hr, hst⟩ := hok
        subst hr
        subst hst
        rw [hnext] at hcn
        obtain ⟨s1, s2, s3⟩ := compute_next_url_ok nx c.case_id u hne hcn
        refine ⟨c.case_id,
          { case_name := some c.name, case_info := "", case_id := some c.case_id },
          rfl, rfl, ?_, ?_, ?_⟩
        · intro h
          rw [s1 h]
        · intro h hc
          rw [s2 h hc]
        · intro h hc
          rw [s3 h hc]

theorem claim_C1_witness :
    sampleSt.sess.mfa_verified = some true ∧ ("/cases" : String) ≠ "" ∧
    ∃ (r : Response) (stOut : St),
      wrap_login_user sampleEnv { next_arg := some "/cases" } sampleSt sampleUser
        = .ok (r, stOut) ∧
      ∃ (cid : Nat) (cc : CurrentCase),
        stOut.sess.current_case = some cc ∧ cc.case_id = some cid ∧
        (urlsplit_netloc "/cases" ≠ "" → r = .redirect (url_for_index (some cid))) ∧
        (urlsplit_netloc "/cases" = "" → strContains "/cases" "cid=" = true →
           r = .redirect "/cases") ∧
        (urlsplit_netloc "/cases" = "" → strContains "/cases" "cid=" = false →
           r = .redirect ("/cases" ++ "?cid=" ++ pyStrNat cid)) := by
  refine ⟨rfl, by decide, _, _, rfl, ?_⟩
  exact claim_C1_redirect_guard sampleEnv { next_arg := some "/cases" } sampleSt
    sampleUser "/cases" _ _ rfl rfl rfl (by decide)

/-- Claim C2: a user with unset case context is, at finalization with at
least one existing case, assigned the case of least id; the assignment is
committed to the user's row and populates the session's current-case
descriptor — whether the subsequent redirect computation returns or
raises; a user whose case id is already set keeps it unchanged. -/
theorem claim_C2_case_context (env : Env) (req : Req) (st : St) (user : User)
    (hmfa : st.sess.mfa_verified = some true) :
    (user.ctx_case = none → st.db.cases ≠ [] →
      ∃ (c : Case) (stOut : St),
        casesFirstByCaseId st.db.cases = some c ∧ c ∈ st.db.cases ∧
        (∀ x ∈ st.db.cases, c.case_id ≤ x.case_id) ∧
        ((∃ r : Response, wrap_login_user env req st user = .ok (r, stOut)) ∨
         (∃ e : PyExn, wrap_login_user env req st user = .error (e, stOut))) ∧
        stOut.db = dbUpdateUser st.db
          { user with ctx_case := some c.case_id, ctx_human_case := some c.name } ∧
        stOut.sess.current_case
          = some { case_name := some c.name, case_info := "",
                   case_id := some c.case_id }) ∧
    (∀ k : Nat, user.ctx_case = some k →
      ∃ stOut : St,
        ((∃ r : Response, wrap_login_user env req st user = .ok (r, stOut)) ∨
         (∃ e : PyExn, wrap_login_user env req st user = .error (e, stOut))) ∧
        stOut.db = st.db ∧
        stOut.sess.current_case
          = some { case_name := user.ctx_human_case, case_info := "",
                   case_id := some k }) := by
  constructor
  · intro hctx hcases
    cases hcs : st.db.cases with
    | nil => exact absurd hcs hcases
    | cons c0 cs =>
      obtain ⟨c, hfirst, hmem, hle⟩ := casesFirst_is_min c0 cs
      have hfirst2 : casesFirstByCaseId st.db.cases = some c := by
        rw [hcs]
        exact hfirst
      cases hcn : compute_next_url req.next_arg (some c.case_id) with
      | ok u =>
        exact ⟨c, _, hfirst, hmem, hle,
          Or.inl ⟨_, wrap_login_user_finalize_none_ok env req st user c u
                       hmfa hctx hfirst2 hcn⟩,
          rfl, rfl⟩
      | error e =>
        exact ⟨c, _, hfirst, hmem, hle,
          Or.inr ⟨e, wrap_login_user_finalize_none_err env req st user c e
                       hmfa hctx hfirst2 hcn⟩,
          rfl, rfl⟩
  · intro k hctx
    cases hcn : compute_next_url req.next_arg (some k) with
    | ok u =>
      exact ⟨_, Or.inl ⟨_, wrap_login_user_finalize_some_ok env req st user k u
                            hmfa hctx hcn⟩,
        rfl, rfl⟩
    | error e =>
      exact ⟨_, Or.inr ⟨e, wrap_login_user_finalize_some_err env req st user k e
                            hmfa hctx hcn⟩,
        rfl, rfl⟩

theorem claim_C2_witness :
    sampleSt.sess.mfa_verified = some true ∧ sampleUser.ctx_case = none ∧
    sampleSt.db.cases ≠ [] ∧
    (∃ (c : Case) (stOut : St),
      casesFirstByCaseId sampleSt.db.cases = some c ∧ c ∈ sampleSt.db.cases ∧
      (∀ x ∈ sampleSt.db.cases, c.case_id ≤ x.case_id) ∧
      ((∃ r : Response, wrap_login_user sampleEnv { next_arg := none } sampleSt sampleUser
          = .ok (r, stOut)) ∨
       (∃ e : PyExn, wrap_login_user sampleEnv { next_arg := none } sampleSt sampleUser
          = .error (e, stOut))) ∧
      stOut.db = dbUpdateUser sampleSt.db
        { sampleUser with ctx_case := some c.case_id, ctx_human_case := some c.name } ∧
      stOut.sess.current_case
        = some { case_name := some c.name, case_info := "",
                 case_id := some c.case_id }) :=
  ⟨rfl, rfl, by decide,
   (claim_C2_case_context sampleEnv { next_arg := none } sampleSt sampleUser rfl).1 rfl
     (by decide)⟩
